import Mathlib

/-
Verification development for the `msgpack_lazer_api` codec core
(`src/packages/msgpack_lazer_api/src/{lib.rs, encode.rs, decode.rs}`).

The Rust code is shallowly embedded:
  * wire bytes are `List Nat`, each entry meaning one byte (normalised mod 256
    where the source reads machine bytes);
  * the dynamic host values (Python objects handed to `write_object` and
    produced by `read_object`) are the inductive `Value` below;
  * fallible Rust code returning `PyResult` becomes `Except`; Rust `panic!`
    on the encode side becomes the distinguished failure `EncFail.panicked`
    (the source has no structured-error return on the encode path);
  * machine integers are `Nat`/`Int` with explicit `% 2 ^ w` where the source
    truncates;
  * the recursive decoder takes a `Nat` fuel argument (the source recursion is
    bounded only by input nesting); fuel exhaustion is the distinguished
    outcome `DecFail.outOfFuel`, never identified with a decode error.

Functions keep the Rust names (`write_object`, `read_array`, ...) where Lean
allows.  Behaviour of the external crates (`rmp`, `chrono`, `pyo3`) invoked by
the source is embedded according to those crates' documented semantics; each
such definition carries a comment naming the crate function it models.
-/

/-- Big-endian interpretation of a byte list (each entry taken mod 256),
as done by `u16::from_be_bytes` / `u32::from_be_bytes` / `u64::from_be_bytes`
in `decode.rs`. -/
def beNat (bs : List Nat) : Nat :=
  bs.foldl (fun acc b => acc * 256 + b % 256) 0

/-- Big-endian byte list of width `w` for an unsigned value `u < 2 ^ (8 * w)`,
as produced by `to_be_bytes` in `encode.rs`. -/
def beBytes (w : Nat) (u : Nat) : List Nat :=
  (List.range w).map (fun i => u / 256 ^ (w - 1 - i) % 256)

/-- Reinterpret an unsigned `w`-bit value as a signed two's-complement value,
as `i8::from_be_bytes` etc. do in `decode.rs`. -/
def toSigned (w : Nat) (u : Nat) : Int :=
  if u % 2 ^ w < 2 ^ (w - 1) then (u % 2 ^ w : Nat)
  else (u % 2 ^ w : Nat) - (2 ^ w : Nat)

/-- Two's-complement big-endian byte list of width `w` of an integer in range,
as `to_be_bytes` on `i32`/`i64` produces in `encode.rs`. -/
def beBytesI (w : Nat) (n : Int) : List Nat :=
  beBytes w (n.emod (2 ^ (8 * w))).toNat

/-- Round `s / 2 ^ d` to the nearest integer, ties to even (`d ≥ 1`). -/
def rshiftRNE (s d : Nat) : Nat :=
  let q := s / 2 ^ d
  let r := s % 2 ^ d
  let half := 2 ^ (d - 1)
  if r > half || (r == half && q % 2 == 1) then q + 1 else q

/-- Round `s * 2 ^ k` to the nearest integer, ties to even. -/
def scaleRNE (s : Nat) (k : Int) : Nat :=
  if 0 ≤ k then s * 2 ^ k.toNat else rshiftRNE s (-k).toNat

/-- Structural helper for `flog2` (the fuel bounds the number of halvings,
so `flog2 n = Nat.log2 n` whenever the fuel is at least `n`). -/
def flog2Aux : Nat → Nat → Nat
  | 0, _ => 0
  | f + 1, n => if n ≥ 2 then flog2Aux f (n / 2) + 1 else 0

/-- Floor of the base-2 logarithm (`⌊log₂ n⌋`, 0 for `n = 0`), defined by
structural recursion so that concrete evaluations reduce in the kernel. -/
def flog2 (n : Nat) : Nat := flog2Aux n n

/-- IEEE-754 narrowing of a binary64 bit pattern to a binary32 bit pattern
(round to nearest, ties to even), the semantics of Rust's `as f32` cast used
by `obj.extract::<f32>()` in `write_float` (pyo3 extracts the Python float as
`f64` and casts). -/
def f64ToF32bits (b : Nat) : Nat :=
  let s : Nat := b / 2 ^ 63 % 2
  let e : Nat := b / 2 ^ 52 % 2048
  let m : Nat := b % 2 ^ 52
  if e = 2047 then
    -- infinity / NaN (Rust casts NaN to a quiet NaN)
    if m = 0 then s * 2 ^ 31 + 0x7F800000 else s * 2 ^ 31 + 0x7FC00000
  else
    let sig : Nat := if e = 0 then m else 2 ^ 52 + m
    let ex : Int := if e = 0 then -1074 else (e : Int) - 1075
    if sig = 0 then s * 2 ^ 31
    else
      let u : Int := (flog2 sig : Int) + ex
      if u < -126 then
        -- subnormal (or zero) result, quantum 2 ^ (-149)
        let r := scaleRNE sig (ex + 149)
        if r ≥ 2 ^ 23 then s * 2 ^ 31 + 2 ^ 23 else s * 2 ^ 31 + r
      else
        -- normal candidate: scale the significand to 24 bits
        let r := scaleRNE sig (23 - (flog2 sig : Int))
        let (r2, u2) := if r = 2 ^ 24 then (2 ^ 23, u + 1) else (r, u)
        if u2 > 127 then s * 2 ^ 31 + 0x7F800000
        else s * 2 ^ 31 + (u2 + 127).toNat * 2 ^ 23 + (r2 - 2 ^ 23)

/-- IEEE-754 widening of a binary32 bit pattern to a binary64 bit pattern
(exact), the semantics of handing a decoded `f32` to Python as a float. -/
def f32ToF64bits (b : Nat) : Nat :=
  let s := b / 2 ^ 31 % 2
  let e := b / 2 ^ 23 % 256
  let m := b % 2 ^ 23
  if e = 255 then s * 2 ^ 63 + 0x7FF * 2 ^ 52 + m * 2 ^ 29
  else if e = 0 then
    if m = 0 then s * 2 ^ 63
    else
      let t := flog2 m
      s * 2 ^ 63 + (t + 874) * 2 ^ 52 + (m - 2 ^ t) * 2 ^ (52 - t)
  else s * 2 ^ 63 + (e + 896) * 2 ^ 52 + m * 2 ^ 29

/-- Strict UTF-8 validity of a byte list, the check done by
`String::from_utf8` in `read_string` (rejects surrogates, overlong forms and
code points above 0x10FFFF). -/
def utf8Valid : List Nat → Bool
  | [] => true
  | b :: rest =>
    if b < 0x80 then utf8Valid rest
    else if b < 0xC2 then false
    else if b < 0xE0 then
      match rest with
      | c1 :: r => decide (0x80 ≤ c1 ∧ c1 < 0xC0) && utf8Valid r
      | _ => false
    else if b < 0xF0 then
      match rest with
      | c1 :: c2 :: r =>
        let lo1 := if b = 0xE0 then 0xA0 else 0x80
        let hi1 := if b = 0xED then 0xA0 else 0xC0
        decide (lo1 ≤ c1 ∧ c1 < hi1) && decide (0x80 ≤ c2 ∧ c2 < 0xC0) && utf8Valid r
      | _ => false
    else if b < 0xF5 then
      match rest with
      | c1 :: c2 :: c3 :: r =>
        let lo1 := if b = 0xF0 then 0x90 else 0x80
        let hi1 := if b = 0xF4 then 0x90 else 0xC0
        decide (lo1 ≤ c1 ∧ c1 < hi1) && decide (0x80 ≤ c2 ∧ c2 < 0xC0) &&
          decide (0x80 ≤ c3 ∧ c3 < 0xC0) && utf8Valid r
      | _ => false
    else false

/-- The dynamic host values crossing the codec boundary: the Python objects
`write_object` dispatches on and `read_object` produces.

  * `str` carries the UTF-8 bytes of a Python `str` (Python string equality is
    equality of these bytes for valid UTF-8);
  * `float` carries the IEEE-754 binary64 bit pattern of a Python `float`;
  * `datetime` is an absolute UTC instant `(seconds, nanoseconds)` as carried
    by `chrono::DateTime<Utc>` in the source (the further conversion of
    nanoseconds to Python's microsecond precision happens outside the codec
    and is not modelled);
  * `apiMod` is the `APIMod` pyclass from `lib.rs` (acronym string bytes and
    settings entries; the source's `HashMap` iteration order is modelled by
    the list order);
  * `modDesc` is the dict `{"acronym": ..., "settings": ...}` that the mod
    descriptor detection in `read_array` returns; it is kept as a separate
    constructor to express which shape the structural resolver chose
    (Python-level it is a plain dict, and `write_object` treats it as one);
  * `unsupported` stands for a Python object of any type outside
    `write_object`'s dispatch list (tuple, set, ...); `read_object` never
    produces it.
-/
inductive Value where
  | none
  | bool (b : Bool)
  | int (n : Int)
  | float (bits : Nat)
  | str (bs : List Nat)
  | bytes (bs : List Nat)
  | list (xs : List Value)
  | dict (entries : List (Value × Value))
  | datetime (secs : Int) (nsec : Nat)
  | apiMod (acronym : List Nat) (settings : List (List Nat × Value))
  | modDesc (acronym : List Nat) (settings : Value)
  | unsupported

/-- Python exception kinds raised on the decode path of the source
(`PyIOError` for truncation, `PyValueError` for bad markers / ext types /
timestamp lengths, `PyUnicodeDecodeError` for invalid UTF-8, `TypeError`
raised by `PyDict::set_item` on an unhashable key). -/
inductive PyErr where
  | ioError
  | valueError (msg : String)
  | unicodeDecodeError
  | typeError
  deriving Repr, DecidableEq

/-- Decode outcome discriminator: a genuine source error, or exhaustion of the
artificial recursion fuel of the embedding. -/
inductive DecFail where
  | pyErr (e : PyErr)
  | outOfFuel
  deriving Repr, DecidableEq

/-- Result of reading one value: the value and the unconsumed suffix of the
input (the cursor advance). -/
abbrev DecResult := Except DecFail (Value × List Nat)

/-- Encode failure: the source encode path never returns a structured error;
its only failure mode is a Rust `panic!` that unwinds out of the top-level
`encode` entry point (`panicked`), plus the embedding's fuel exhaustion. -/
inductive EncFail where
  | panicked (msg : String)
  | outOfFuel
  deriving Repr, DecidableEq

/-- `rmp::encode::write_array_len`: most compact array length header. -/
def write_array_len (n : Nat) : List Nat :=
  if n < 16 then [0x90 + n]
  else if n < 65536 then 0xDC :: beBytes 2 n
  else 0xDD :: beBytes 4 n

/-- `rmp::encode::write_map_len`: most compact map length header. -/
def write_map_len (n : Nat) : List Nat :=
  if n < 16 then [0x80 + n]
  else if n < 65536 then 0xDE :: beBytes 2 n
  else 0xDF :: beBytes 4 n

/-- `rmp::encode::write_str` on UTF-8 bytes `bs`: most compact string header
followed by the bytes (the source calls it on `to_string_lossy` output, which
for a Python `str` is exactly its UTF-8 bytes). -/
def write_str_bytes (bs : List Nat) : List Nat :=
  (if bs.length < 32 then [0xA0 + bs.length]
   else if bs.length < 256 then [0xD9, bs.length % 256]
   else if bs.length < 65536 then 0xDA :: beBytes 2 bs.length
   else 0xDB :: beBytes 4 bs.length) ++ bs

/-- `rmp::encode::write_bin`: bin8/16/32 header followed by the raw bytes. -/
def write_bin_bytes (bs : List Nat) : List Nat :=
  (if bs.length < 256 then [0xC4, bs.length % 256]
   else if bs.length < 65536 then 0xC5 :: beBytes 2 bs.length
   else 0xC6 :: beBytes 4 bs.length) ++ bs

/-- `rmp::encode::write_ext_meta size -1`: extension header for the timestamp
type tag `-1` (byte 0xFF): fixext for sizes 1/2/4/8/16, else ext8/16/32. -/
def write_ext_meta_ts (size : Nat) : List Nat :=
  if size = 1 then [0xD4, 0xFF]
  else if size = 2 then [0xD5, 0xFF]
  else if size = 4 then [0xD6, 0xFF]
  else if size = 8 then [0xD7, 0xFF]
  else if size = 16 then [0xD8, 0xFF]
  else if size < 256 then [0xC7, size % 256, 0xFF]
  else if size < 65536 then 0xC8 :: beBytes 2 size ++ [0xFF]
  else 0xC9 :: beBytes 4 size ++ [0xFF]

/-- `write_timestamp` from `encode.rs`: choose the 4-byte form when
`nsec == 0 ∧ 0 ≤ secs ≤ u32::MAX`, the 8-byte packed form when
`-2^34 ≤ secs < 2^34` (`((nsec as u64) << 34) | (secs as u64 & (2^34 - 1))`,
truncated to 64 bits), and the 12-byte form otherwise; then emit the ext
header and the payload. -/
def write_timestamp (secs : Int) (nsec : Nat) : List Nat :=
  let payload : List Nat :=
    if nsec % 2 ^ 32 = 0 ∧ 0 ≤ secs ∧ secs ≤ 4294967295 then
      beBytes 4 (secs.emod (2 ^ 64)).toNat
    else if -(2 ^ 34) ≤ secs ∧ secs < 2 ^ 34 then
      beBytes 8 ((nsec % 2 ^ 32 * 2 ^ 34 + (secs.emod (2 ^ 64)).toNat % 2 ^ 34) % 2 ^ 64)
    else
      beBytes 4 (nsec % 2 ^ 32) ++ beBytesI 8 secs
  write_ext_meta_ts payload.length ++ payload

/-- One step of the settings loop of `write_api_mod`: for each `(k, v)` pair
append the key string and the recursively encoded value (`wr` is the recursive
`write_object` call at the current fuel). -/
def write_settingsAux (wr : Value → Except EncFail (List Nat)) :
    List (List Nat × Value) → Except EncFail (List Nat)
  | [] => .ok []
  | (k, v) :: rest => do
    let vb ← wr v
    let restb ← write_settingsAux wr rest
    pure (write_str_bytes k ++ vb ++ restb)

/-- The element loop of `write_list`. -/
def write_itemsAux (wr : Value → Except EncFail (List Nat)) :
    List Value → Except EncFail (List Nat)
  | [] => .ok []
  | v :: rest => do
    let vb ← wr v
    let restb ← write_itemsAux wr rest
    pure (vb ++ restb)

/-- The entry loop of `write_hashmap`: key then value, in iteration order. -/
def write_entriesAux (wr : Value → Except EncFail (List Nat)) :
    List (Value × Value) → Except EncFail (List Nat)
  | [] => .ok []
  | (k, v) :: rest => do
    let kb ← wr k
    let vb ← wr v
    let restb ← write_entriesAux wr rest
    pure (kb ++ vb ++ restb)

/-- `write_object` from `encode.rs`: dispatch on the Python value's dynamic
kind.  Notes kept from the source:

  * the dispatch checks `PyList`, `PyString`, `PyInt`, `PyFloat`, `PyBool`,
    `PyBytes`, `PyDict`, `PyNone`, `PyDateTime`, `APIMod` in that order and
    panics for anything else; since Python `bool` is a subtype of `int`, a
    bool passes the `PyInt` downcast first and is encoded as the integer
    0 or 1 (the `write_bool` branch is unreachable for real Python bools);
  * `write_integer` tries `extract::<i32>` then `extract::<i64>`
    (`rmp::encode::write_i32` / `write_i64` emit the fixed 5 and 9 byte forms)
    and panics for integers outside `i64`;
  * `write_float`'s `extract::<f32>` always succeeds for a Python float
    (lossy `as f32` cast), so every float is written with `write_f32`;
  * `modDesc` values are Python dicts (see `Value.modDesc`) and re-encode
    through the dict branch;
  * container length counts are cast `as u32` by the source.

The `Nat` fuel bounds recursion depth; the source is bounded only by the
input's nesting. -/
def write_object : Nat → Value → Except EncFail (List Nat)
  | 0, _ => .error .outOfFuel
  | _ + 1, .none => .ok [0xC0]
  | _ + 1, .bool b => .ok (0xD2 :: beBytesI 4 (if b then 1 else 0))
  | _ + 1, .int n =>
    if -(2 ^ 31) ≤ n ∧ n < 2 ^ 31 then .ok (0xD2 :: beBytesI 4 n)
    else if -(2 ^ 63) ≤ n ∧ n < 2 ^ 63 then .ok (0xD3 :: beBytesI 8 n)
    else .error (.panicked "Unsupported integer type")
  | _ + 1, .float bits => .ok (0xCA :: beBytes 4 (f64ToF32bits bits))
  | _ + 1, .str bs => .ok (write_str_bytes bs)
  | _ + 1, .bytes bs => .ok (write_bin_bytes bs)
  | fuel + 1, .list xs => do
    let body ← write_itemsAux (write_object fuel) xs
    pure (write_array_len (xs.length % 2 ^ 32) ++ body)
  | fuel + 1, .dict es => do
    let body ← write_entriesAux (write_object fuel) es
    pure (write_map_len (es.length % 2 ^ 32) ++ body)
  | _ + 1, .datetime secs nsec => .ok (write_timestamp secs nsec)
  | fuel + 1, .apiMod acr settings => do
    let inner ← write_settingsAux (write_object fuel) settings
    pure (write_array_len 2 ++ write_str_bytes acr ++
      write_array_len (settings.length % 2 ^ 32) ++ inner)
  | fuel + 1, .modDesc acr s => do
    let body ← write_entriesAux (write_object fuel)
      [(.str [97, 99, 114, 111, 110, 121, 109], .str acr),
       (.str [115, 101, 116, 116, 105, 110, 103, 115], s)]
    pure (write_map_len 2 ++ body)
  | _ + 1, .unsupported => .error (.panicked "Unsupported type")

/-- `write_api_mod` from `encode.rs`: outer array header of length 2, the
acronym string, an inner array header declaring `settings.len()` (cast
`as u32`), then for each setting the key string and the encoded value. -/
def write_api_mod (fuel : Nat) (acr : List Nat)
    (settings : List (List Nat × Value)) : Except EncFail (List Nat) := do
  let inner ← write_settingsAux (write_object fuel) settings
  pure (write_array_len 2 ++ write_str_bytes acr ++
    write_array_len (settings.length % 2 ^ 32) ++ inner)

/-- `encode` from `lib.rs` (`encode_py`): runs `write_object` on a fresh
buffer.  Its only failure mode is the panic unwinding out of `write_object`
(there is no structured-error return on this path); on a panic the partially
filled buffer is dropped during unwinding and the caller receives no bytes. -/
def encode_py (fuel : Nat) (v : Value) : Except EncFail (List Nat) :=
  write_object fuel v

/-- The `rmp::Marker` byte classification produced by
`rmp::decode::read_marker` (the constructor names follow `rmp::Marker`). -/
inductive Marker where
  | fixPos (n : Nat)
  | fixMap (n : Nat)
  | fixArray (n : Nat)
  | fixStr (n : Nat)
  | nil
  | reserved
  | fls
  | tru
  | bin8 | bin16 | bin32
  | ext8 | ext16 | ext32
  | f32 | f64
  | u8 | u16 | u32 | u64
  | i8 | i16 | i32 | i64
  | fixExt1 | fixExt2 | fixExt4 | fixExt8 | fixExt16
  | str8 | str16 | str32
  | arr16 | arr32
  | map16 | map32
  | fixNeg (n : Nat)
  deriving Repr, DecidableEq

/-- Map a marker byte to its `rmp::Marker`, exactly as `Marker::from_u8`. -/
def markerOf (b0 : Nat) : Marker :=
  let b := b0 % 256
  if b ≤ 0x7F then .fixPos b
  else if b ≤ 0x8F then .fixMap (b - 0x80)
  else if b ≤ 0x9F then .fixArray (b - 0x90)
  else if b ≤ 0xBF then .fixStr (b - 0xA0)
  else if b = 0xC0 then .nil
  else if b = 0xC1 then .reserved
  else if b = 0xC2 then .fls
  else if b = 0xC3 then .tru
  else if b = 0xC4 then .bin8
  else if b = 0xC5 then .bin16
  else if b = 0xC6 then .bin32
  else if b = 0xC7 then .ext8
  else if b = 0xC8 then .ext16
  else if b = 0xC9 then .ext32
  else if b = 0xCA then .f32
  else if b = 0xCB then .f64
  else if b = 0xCC then .u8
  else if b = 0xCD then .u16
  else if b = 0xCE then .u32
  else if b = 0xCF then .u64
  else if b = 0xD0 then .i8
  else if b = 0xD1 then .i16
  else if b = 0xD2 then .i32
  else if b = 0xD3 then .i64
  else if b = 0xD4 then .fixExt1
  else if b = 0xD5 then .fixExt2
  else if b = 0xD6 then .fixExt4
  else if b = 0xD7 then .fixExt8
  else if b = 0xD8 then .fixExt16
  else if b = 0xD9 then .str8
  else if b = 0xDA then .str16
  else if b = 0xDB then .str32
  else if b = 0xDC then .arr16
  else if b = 0xDD then .arr32
  else if b = 0xDE then .map16
  else if b = 0xDF then .map32
  else .fixNeg b

/-- The three array markers: the only markers whose handling in `read_object`
depends on the `api_mod` (pair mode) flag. -/
def Marker.isArrayKind : Marker → Bool
  | .fixArray _ | .arr16 | .arr32 => true
  | _ => false

/-- `cursor.read_exact` on an `n`-byte buffer: the next `n` bytes (normalised
mod 256, as they are `u8` on the wire) and the remaining input, or the
truncation error (`to_py_err` maps `std::io::Error` to `PyIOError`). -/
def readBytes (n : Nat) (input : List Nat) : Except DecFail (List Nat × List Nat) :=
  if n ≤ input.length then .ok ((input.take n).map (· % 256), input.drop n)
  else .error (.pyErr .ioError)

/-- `read_string` from `decode.rs`: read `len` bytes and require valid UTF-8
(`PyUnicodeDecodeError` otherwise). -/
def readStringN (len : Nat) (input : List Nat) : DecResult := do
  let (bs, rest) ← readBytes len input
  if utf8Valid bs then pure (.str bs, rest) else .error (.pyErr .unicodeDecodeError)

/-- Python object hashability as relevant to `PyDict::set_item` in the
decoder: decoded lists and dicts (including the mod-descriptor dict) are
unhashable and make `set_item` raise `TypeError`; every other decoded kind is
hashable.  (`apiMod` and `unsupported` never occur as decoded keys.) -/
def isHashable : Value → Bool
  | .list _ | .dict _ | .modDesc _ _ => false
  | _ => true

/-- Strip the common powers of two of a dyadic rational `n / 2 ^ s`, giving
its canonical form (`s = 0`, or `n` odd): two dyadic rationals are equal
exactly when their canonical forms coincide. -/
def normNum : Int → Nat → Int × Nat
  | n, 0 => (n, 0)
  | n, s + 1 =>
    if n = 0 then (0, 0)
    else if n % 2 = 0 then normNum (n / 2) s else (n, s + 1)

/-- Canonical comparison key realising Python `==` on the values the decoder
can produce: Python compares `bool`, `int` and `float` by exact numeric value
(`True == 1 == 1.0`), so all three map onto the canonical dyadic rational
`num n s` (value `n / 2 ^ s`); infinities are their own values; `str`,
`bytes` and `datetime` compare within their own kind. -/
inductive PyKey where
  | noneK
  | num (n : Int) (s : Nat)
  | posInf
  | negInf
  | strK (bs : List Nat)
  | bytesK (bs : List Nat)
  | dtK (secs : Int) (nsec : Nat)
  deriving DecidableEq

/-- The comparison key of a decoded value, `Option.none` for values equal to
no freshly decoded value: float NaN (Python `nan != nan`; CPython's identity
shortcut cannot apply to two distinct decoded objects) and containers (which
`set_item` rejects before any comparison).  `apiMod` and `unsupported` never
occur as decoded keys; plain-object identity equality cannot relate two
decoded values either. -/
def pyKeyOf : Value → Option PyKey
  | .none => some .noneK
  | .bool b => some (.num (if b then 1 else 0) 0)
  | .int n => some (.num n 0)
  | .float bits =>
    let sg : Nat := bits / 2 ^ 63 % 2
    let e : Nat := bits / 2 ^ 52 % 2048
    let m : Nat := bits % 2 ^ 52
    if e = 2047 then
      if m = 0 then some (if sg = 1 then .negInf else .posInf) else Option.none
    else
      let sig : Int := (if sg = 1 then -1 else 1) *
        (if e = 0 then (m : Int) else ((2 ^ 52 + m : Nat) : Int))
      if 1075 ≤ e then some (.num (sig * 2 ^ (e - 1075)) 0)
      else
        let scale : Nat := if e = 0 then 1074 else 1075 - e
        some (.num (normNum sig scale).1 (normNum sig scale).2)
  | .str bs => some (.strK bs)
  | .bytes bs => some (.bytesK bs)
  | .datetime secs nsec => some (.dtK secs nsec)
  | _ => Option.none

/-- Python `==` as used by dict key lookup on decoded values: two values are
equal exactly when both have a comparison key and the keys coincide.  This
captures cross-type numeric equality (`True == 1 == 1.0`), `+0.0 == -0.0 == 0`,
and `nan != nan` for distinct decoded objects. -/
def valueKeyEq (a b : Value) : Bool :=
  match pyKeyOf a, pyKeyOf b with
  | some x, some y => x == y
  | _, _ => false

/-- CPython `dict[k] = v` on an insertion-ordered association list: if an
equal key exists, its value is replaced in place (the originally stored key
object is kept); otherwise the pair is appended. -/
def dictSet (d : List (Value × Value)) (k v : Value) : List (Value × Value) :=
  if d.any (fun p => valueKeyEq p.1 k) then
    d.map (fun p => if valueKeyEq p.1 k then (p.1, v) else p)
  else d ++ [(k, v)]

/-- `PyDict::set_item` with its failure mode: `TypeError` on an unhashable
key. -/
def dictSetE (d : List (Value × Value)) (k v : Value) :
    Except DecFail (List (Value × Value)) :=
  if isHashable k then .ok (dictSet d k v) else .error (.pyErr .typeError)

/-- The insertion loop of `read_map`: `set_item` for each decoded pair in
wire order, starting from the dict `d`. -/
def buildDictFromE (d : List (Value × Value)) :
    List (Value × Value) → Except DecFail (List (Value × Value))
  | [] => .ok d
  | (k, v) :: ps => do
    let d2 ← dictSetE d k v
    buildDictFromE d2 ps

/-- The element loop of `read_array` outside pair mode: decode `n` further
elements sequentially (`rd` is the recursive `read_object` call in the
enclosing mode, which is non-pair whenever this loop runs). -/
def readItemsAux (rd : List Nat → DecResult) :
    Nat → List Nat → Except DecFail (List Value × List Nat)
  | 0, input => .ok ([], input)
  | n + 1, input => do
    let (v, r) ← rd input
    let (vs, r2) ← readItemsAux rd n r
    pure (v :: vs, r2)

/-- The pair-mode loop of `read_array`: while `i < len * 2` consume a key and
a value (both decoded in non-pair mode) and `set_item` them into the result
dict, in wire order.  `n` counts the remaining pairs. -/
def pairLoopAux (rd : List Nat → DecResult) :
    Nat → List (Value × Value) → List Nat →
    Except DecFail (List (Value × Value) × List Nat)
  | 0, d, input => .ok (d, input)
  | n + 1, d, input => do
    let (k, r1) ← rd input
    let (v, r2) ← rd r1
    let d2 ← dictSetE d k v
    pairLoopAux rd n d2 r2

/-- The key/value collection loop of `read_map`: decode `n` pairs (all in
non-pair mode) into a list, in wire order. -/
def readPairsAux (rd : List Nat → DecResult) :
    Nat → List Nat → Except DecFail (List (Value × Value) × List Nat)
  | 0, input => .ok ([], input)
  | n + 1, input => do
    let (k, r1) ← rd input
    let (v, r2) ← rd r1
    let (ps, r3) ← readPairsAux rd n r2
    pure ((k, v) :: ps, r3)

/-- The mod-descriptor detection test in `read_array`:
`obj1.extract::<String>(py).map_or(false, |k| k.len() == 2)` — the first
element is a Python `str` whose UTF-8 byte length is exactly 2. -/
def isAcronym : Value → Bool
  | .str bs => bs.length == 2
  | _ => false

/-- The number of key/value pairs the pair-mode loop of `read_array`
consumes: the source computes the wire count `array_len = len * 2` in `u32`
(`decode.rs:199`), which wraps for `len ≥ 2^31` (release-build semantics),
and the loop strides 2, always landing exactly on the even `array_len`. -/
def pairModeCount (len : Nat) : Nat :=
  len * 2 % 2 ^ 32 / 2

/-- `read_array` from `decode.rs`, parameterised by the recursive
`read_object` calls (`rdF` in non-pair mode, `rdT` in pair mode):

  * in pair mode (`api_mod = true`) the wire count is `len * 2` computed in
    `u32` (wrapping, see `pairModeCount`) and the loop consumes key/value
    pairs into a dict;
  * otherwise, when `len == 2`, decode the first element in non-pair mode; if
    it is a 2-byte string, decode the second element in pair mode and return
    the dict `{"acronym": obj1, "settings": obj2}` (constructor `modDesc`);
    if not, keep it as the first item and decode the one remaining element
    normally;
  * otherwise decode `len` elements into a list. -/
def read_arrayAux (rdF rdT : List Nat → DecResult) (len : Nat) (apiMod : Bool)
    (input : List Nat) : DecResult :=
  if apiMod then do
    let (d, r) ← pairLoopAux rdF (pairModeCount len) [] input
    pure (.dict d, r)
  else if len = 2 then do
    let (v1, r1) ← rdF input
    if isAcronym v1 then do
      let (v2, r2) ← rdT r1
      pure (.modDesc (match v1 with | .str bs => bs | _ => []) v2, r2)
    else do
      let (vs, r2) ← readItemsAux rdF 1 r1
      pure (.list (v1 :: vs), r2)
  else do
    let (vs, r) ← readItemsAux rdF len input
    pure (.list vs, r)

/-- `read_map` from `decode.rs`, parameterised by the recursive non-pair
`read_object` call: collect `len` key/value pairs, then insert them all into
a fresh dict. -/
def read_mapAux (rd : List Nat → DecResult) (len : Nat) (input : List Nat) :
    DecResult := do
  let (ps, r) ← readPairsAux rd len input
  let d ← buildDictFromE [] ps
  pure (.dict d, r)

/-- Validity of `(secs, nsec)` for `chrono`'s
`Utc.timestamp_opt(secs, nsec).single()`: nanoseconds below 2·10⁹ (the extra
second covers leap seconds) and seconds within `chrono`'s representable year
range -262144..=262143 (bounds computed from the proleptic Gregorian
calendar). -/
def tsValid (secs : Int) (nsec : Nat) : Bool :=
  decide (nsec < 2000000000) &&
  decide (-8334632851200 ≤ secs) && decide (secs ≤ 8210298412799)

/-- The payload-length dispatch of `read_timestamp`: the `(secs, nsec)` pair
extracted from a 4-, 8- or 12-byte payload, `Option.none` for any other
length.  For 8 bytes the source computes `nsec = (packed >> 34) as u32` and
`secs = packed & 0x3FFFFFFFF` (no sign extension); for 12 bytes the seconds
are a signed big-endian 64-bit value (the source's `as u64` and later
`as i64` round-trip). -/
def tsPair (data : List Nat) : Option (Int × Nat) :=
  if data.length = 4 then some ((beNat data : Nat), 0)
  else if data.length = 8 then
    some ((beNat data % 2 ^ 34 : Nat), beNat data / 2 ^ 34 % 2 ^ 32)
  else if data.length = 12 then
    some (toSigned 64 (beNat (data.drop 4)), beNat (data.take 4))
  else none

/-- `read_timestamp` from `decode.rs`: dispatch on the payload length
(`PyValueError` otherwise), then build `Utc.timestamp_opt(secs, nsec)
.single()` and convert it to Python.  An unrepresentable instant makes
`single()` return `None`, and converting that `Option` yields Python `None`:
the function then *succeeds* with `None` rather than raising. -/
def read_timestamp (data : List Nat) : Except DecFail Value :=
  match tsPair data with
  | Option.none => .error (.pyErr (.valueError "Invalid timestamp data length"))
  | some (secs, nsec) =>
    if tsValid secs nsec then .ok (.datetime secs nsec) else .ok .none

/-- `read_ext` from `decode.rs`: read the signed type byte, then `len`
payload bytes; type `-1` (byte 0xFF) is the timestamp, anything else is
`PyValueError`. -/
def read_ext (len : Nat) (input : List Nat) : DecResult := do
  let (tb, r1) ← readBytes 1 input
  let (data, r2) ← readBytes len r1
  if tb = [0xFF] then do
    let v ← read_timestamp data
    pure (v, r2)
  else .error (.pyErr (.valueError "Unsupported extension type"))

/-- The marker dispatch of `read_object`, parameterised by the recursive
calls (`rdF` non-pair, `rdT` pair mode).  The `api_mod` flag is consulted
only by the three array branches; `reserved` (0xC1) is the single marker
hitting the source's catch-all `Unsupported MessagePack marker` arm. -/
def readDispatch (rdF rdT : List Nat → DecResult) (apiMod : Bool) (m : Marker)
    (input : List Nat) : DecResult :=
  match m with
  | .nil => .ok (.none, input)
  | .tru => .ok (.bool true, input)
  | .fls => .ok (.bool false, input)
  | .fixPos n => .ok (.int n, input)
  | .fixNeg n => .ok (.int ((n : Int) - 256), input)
  | .u8 => do
    let (bs, r) ← readBytes 1 input
    pure (.int (beNat bs), r)
  | .u16 => do
    let (bs, r) ← readBytes 2 input
    pure (.int (beNat bs), r)
  | .u32 => do
    let (bs, r) ← readBytes 4 input
    pure (.int (beNat bs), r)
  | .u64 => do
    let (bs, r) ← readBytes 8 input
    pure (.int (beNat bs), r)
  | .i8 => do
    let (bs, r) ← readBytes 1 input
    pure (.int (toSigned 8 (beNat bs)), r)
  | .i16 => do
    let (bs, r) ← readBytes 2 input
    pure (.int (toSigned 16 (beNat bs)), r)
  | .i32 => do
    let (bs, r) ← readBytes 4 input
    pure (.int (toSigned 32 (beNat bs)), r)
  | .i64 => do
    let (bs, r) ← readBytes 8 input
    pure (.int (toSigned 64 (beNat bs)), r)
  | .bin8 => do
    let (lb, r) ← readBytes 1 input
    let (data, r2) ← readBytes (beNat lb) r
    pure (.bytes data, r2)
  | .bin16 => do
    let (lb, r) ← readBytes 2 input
    let (data, r2) ← readBytes (beNat lb) r
    pure (.bytes data, r2)
  | .bin32 => do
    let (lb, r) ← readBytes 4 input
    let (data, r2) ← readBytes (beNat lb) r
    pure (.bytes data, r2)
  | .fixStr n => readStringN n input
  | .str8 => do
    let (lb, r) ← readBytes 1 input
    readStringN (beNat lb) r
  | .str16 => do
    let (lb, r) ← readBytes 2 input
    readStringN (beNat lb) r
  | .str32 => do
    let (lb, r) ← readBytes 4 input
    readStringN (beNat lb) r
  | .f32 => do
    let (bs, r) ← readBytes 4 input
    pure (.float (f32ToF64bits (beNat bs)), r)
  | .f64 => do
    let (bs, r) ← readBytes 8 input
    pure (.float (beNat bs), r)
  | .fixArray n => read_arrayAux rdF rdT n apiMod input
  | .arr16 => do
    let (lb, r) ← readBytes 2 input
    read_arrayAux rdF rdT (beNat lb) apiMod r
  | .arr32 => do
    let (lb, r) ← readBytes 4 input
    read_arrayAux rdF rdT (beNat lb) apiMod r
  | .fixMap n => read_mapAux rdF n input
  | .map16 => do
    let (lb, r) ← readBytes 2 input
    read_mapAux rdF (beNat lb) r
  | .map32 => do
    let (lb, r) ← readBytes 4 input
    read_mapAux rdF (beNat lb) r
  | .fixExt1 => read_ext 1 input
  | .fixExt2 => read_ext 2 input
  | .fixExt4 => read_ext 4 input
  | .fixExt8 => read_ext 8 input
  | .fixExt16 => read_ext 16 input
  | .ext8 => do
    let (lb, r) ← readBytes 1 input
    read_ext (beNat lb) r
  | .ext16 => do
    let (lb, r) ← readBytes 2 input
    read_ext (beNat lb) r
  | .ext32 => do
    let (lb, r) ← readBytes 4 input
    read_ext (beNat lb) r
  | .reserved => .error (.pyErr (.valueError "Unsupported MessagePack marker"))

/-- `read_object` from `decode.rs`: read one marker byte and dispatch, with
the pair-mode flag `apiMod`.  The fuel decreases once per nesting level (the
per-element loops run at constant fuel, like the source's `while` loops), so
any finite nesting depth is covered by some fuel. -/
def read_object : Nat → Bool → List Nat → DecResult
  | 0, _, _ => .error .outOfFuel
  | _ + 1, _, [] => .error (.pyErr (.valueError "Failed to read marker"))
  | fuel + 1, apiMod, b :: rest =>
    readDispatch (read_object fuel false) (read_object fuel true) apiMod
      (markerOf b) rest

/-- `read_array` from `decode.rs` at fuel `fuel`: its recursive element reads
are `read_object fuel` in the respective modes, exactly as `read_object
(fuel + 1)` invokes it. -/
def read_array (fuel len : Nat) (apiMod : Bool) (input : List Nat) : DecResult :=
  read_arrayAux (read_object fuel false) (read_object fuel true) len apiMod input

/-- `decode` from `lib.rs` (`decode_py`): decode one value from offset 0 in
non-pair mode; trailing bytes (the returned rest) are ignored, not
validated. -/
def decode_py (fuel : Nat) (data : List Nat) : DecResult :=
  read_object fuel false data

/-- `isAcronym` holds exactly on 2-byte strings. -/
theorem isAcronym_iff (v : Value) :
    isAcronym v = true ↔ ∃ bs, v = .str bs ∧ bs.length = 2 := by
  cases v <;> simp [isAcronym]

/-- The marker dispatch ignores the pair-mode flag on every non-array
marker. -/
theorem readDispatch_pair_irrel (rdF rdT : List Nat → DecResult) (m : Marker)
    (input : List Nat) (h : m.isArrayKind = false) (a1 a2 : Bool) :
    readDispatch rdF rdT a1 m input = readDispatch rdF rdT a2 m input := by
  cases m <;> first
    | rfl
    | simp [Marker.isArrayKind] at h

/-- `read_object` ignores the pair-mode flag whenever the next marker is not
an array marker. -/
theorem read_object_pair_irrel (fuel : Nat) (b : Nat) (rest : List Nat)
    (h : (markerOf b).isArrayKind = false) (a1 a2 : Bool) :
    read_object fuel a1 (b :: rest) = read_object fuel a2 (b :: rest) := by
  cases fuel with
  | zero => rfl
  | succ fuel =>
    exact readDispatch_pair_irrel (read_object fuel false) (read_object fuel true)
      (markerOf b) rest h a1 a2

/-- C3: encoding the ModDescriptor with acronym "HD" (bytes [72, 68]) and
settings {"speed": 1.5} (key bytes [115, 112, 101, 101, 100], value the
Python float 1.5, bit pattern 0x3FF8000000000000) produces the 16-byte wire
form, and decoding those bytes yields the ModDescriptor dict with the same
acronym and with settings mapping "speed" to 1.5 (stored as an f32 on the
wire, bit-exactly 1.5). -/
theorem c3_mod_descriptor_round_trip :
    encode_py 3 (.apiMod [72, 68] [([115, 112, 101, 101, 100],
        .float 0x3FF8000000000000)]) =
      .ok [146, 162, 72, 68, 145, 165, 115, 112, 101, 101, 100, 202, 63, 192, 0, 0]
  ∧ decode_py 5 [146, 162, 72, 68, 145, 165, 115, 112, 101, 101, 100, 202, 63, 192, 0, 0] =
      .ok (.modDesc [72, 68]
        (.dict [(.str [115, 112, 101, 101, 100], .float 0x3FF8000000000000)]), []) :=
  ⟨by rfl, by rfl⟩

/-- C5: each of the six boundary seconds values (nanoseconds = 0) selects the
documented size class (shown by the exact emitted bytes: 0xD6 = 4-byte form,
0xD7 = 8-byte form, 0xC7 12 = 12-byte form), and the five values
0, 2^32 - 1, 2^32, 2^34 - 1, 2^34 round-trip exactly; but seconds = -2^34
is packed into the 8-byte form as its low 34 bits (all zero) and decodes to
the instant (0, 0), not to (-2^34, 0): the code silently corrupts negative
seconds in the packed form. -/
theorem c5_timestamp_boundaries_bug :
    write_timestamp 0 0 = [214, 255, 0, 0, 0, 0]
  ∧ decode_py 2 (write_timestamp 0 0) = .ok (.datetime 0 0, [])
  ∧ write_timestamp 4294967295 0 = [214, 255, 255, 255, 255, 255]
  ∧ decode_py 2 (write_timestamp 4294967295 0) = .ok (.datetime 4294967295 0, [])
  ∧ write_timestamp 4294967296 0 = [215, 255, 0, 0, 0, 1, 0, 0, 0, 0]
  ∧ decode_py 2 (write_timestamp 4294967296 0) = .ok (.datetime 4294967296 0, [])
  ∧ write_timestamp 17179869183 0 = [215, 255, 0, 0, 0, 3, 255, 255, 255, 255]
  ∧ decode_py 2 (write_timestamp 17179869183 0) = .ok (.datetime 17179869183 0, [])
  ∧ write_timestamp 17179869184 0 = [199, 12, 255, 0, 0, 0, 0, 0, 0, 0, 4, 0, 0, 0, 0]
  ∧ decode_py 2 (write_timestamp 17179869184 0) = .ok (.datetime 17179869184 0, [])
  ∧ write_timestamp (-17179869184) 0 = [215, 255, 0, 0, 0, 0, 0, 0, 0, 0]
  ∧ decode_py 2 (write_timestamp (-17179869184) 0) = .ok (.datetime 0 0, [])
  ∧ ((0 : Int) ≠ -17179869184) :=
  ⟨by rfl, by rfl, by rfl, by rfl, by rfl, by rfl, by rfl, by rfl, by rfl, by rfl,
   by rfl, by rfl, by decide⟩

/-- C4 counterexample: `encode(42)` emits the fixed 5-byte i32 form
0xD2 00 00 00 2A (`rmp::encode::write_i32`), not the single byte 0x2A the
claim states. -/
theorem c4_encode42_counterexample :
    encode_py 1 (.int 42) = .ok [0xD2, 0, 0, 0, 0x2A]
  ∧ [0xD2, 0, 0, 0, 0x2A] ≠ [0x2A] :=
  ⟨by rfl, by decide⟩

/-- C6 counterexample: on the 8-byte payload with value P = 2^34 the code
yields nanoseconds 1 (= P >> 34, the high 30 bits), while the high 34 bits of
P (P >> 30) are 16: the claim's formula disagrees with the code. -/
theorem c6_high34_counterexample :
    read_timestamp [0, 0, 0, 4, 0, 0, 0, 0] = .ok (.datetime 0 1)
  ∧ beNat [0, 0, 0, 4, 0, 0, 0, 0] / 2 ^ 30 = 16
  ∧ (1 : Nat) ≠ 16 :=
  ⟨by rfl, by rfl, by decide⟩

/-- C7 counterexample: a 12-byte timestamp payload with nanoseconds =
2000000000 (not a representable instant) decodes *successfully* to Python
`None` instead of failing with an error. -/
theorem c7_unrepresentable_counterexample :
    decode_py 2 [0xC7, 12, 0xFF, 0x77, 0x35, 0x94, 0x00,
      0, 0, 0, 0, 0, 0, 0, 0] = .ok (.none, []) := by
  rfl

/-- C2 counterexample: for a ModDescriptor with N = 1 settings entry the
encoder emits the inner array header byte 0x91 (declared length 1 =
`settings.len()`), not the header 0x92 (declared length 2 = 2·N) the claim
states. -/
theorem c2_inner_header_counterexample :
    write_api_mod 1 [72, 68] [([120], .none)] =
      .ok [146, 162, 72, 68, 145, 161, 120, 192]
  ∧ write_array_len (2 * 1) = [146]
  ∧ (145 : Nat) ≠ 146 :=
  ⟨by rfl, by rfl, by decide⟩

/-- Accumulator bound for `beNat`. -/
theorem beNat_aux_lt (bs : List Nat) : ∀ acc : Nat,
    bs.foldl (fun a b => a * 256 + b % 256) acc < (acc + 1) * 256 ^ bs.length := by
  induction bs with
  | nil => intro acc; simp
  | cons b bs ih =>
    intro acc
    have h1 := ih (acc * 256 + b % 256)
    calc (b :: bs).foldl (fun a c => a * 256 + c % 256) acc
        = bs.foldl (fun a c => a * 256 + c % 256) (acc * 256 + b % 256) := rfl
      _ < (acc * 256 + b % 256 + 1) * 256 ^ bs.length := h1
      _ ≤ ((acc + 1) * 256) * 256 ^ bs.length := by
          have h3 : acc * 256 + b % 256 + 1 ≤ (acc + 1) * 256 := by
            have : b % 256 < 256 := Nat.mod_lt _ (by norm_num)
            omega
          exact Nat.mul_le_mul_right _ h3
      _ = (acc + 1) * 256 ^ (b :: bs).length := by rw [List.length_cons]; ring

/-- A big-endian byte list denotes a value below `256 ^ length`. -/
theorem beNat_lt (bs : List Nat) : beNat bs < 256 ^ bs.length := by
  simpa [beNat] using beNat_aux_lt bs 0

/-- C4 (amended): `encode(42)` emits the fixed 5-byte i32 form
0xD2 00 00 00 2A and `encode(-1)` emits 0xD2 FF FF FF FF (not the msgpack
fixint forms): `write_integer` first attempts the 32-bit signed
representation (`extract::<i32>` / `rmp::encode::write_i32`, always marker
0xD2 plus 4 big-endian two's-complement bytes) and uses the 64-bit signed
form (marker 0xD3 plus 8 bytes) exactly when the value does not fit 32 bits
but fits 64. -/
theorem c4_integer_encoding_amended :
    (encode_py 1 (.int 42) = .ok [0xD2, 0, 0, 0, 0x2A]
      ∧ encode_py 1 (.int (-1)) = .ok [0xD2, 0xFF, 0xFF, 0xFF, 0xFF])
  ∧ (∀ fuel n, -(2 ^ 31) ≤ n → n < 2 ^ 31 →
      encode_py (fuel + 1) (.int n) = .ok (0xD2 :: beBytesI 4 n))
  ∧ (∀ fuel n, (n < -(2 ^ 31) ∨ 2 ^ 31 ≤ n) → -(2 ^ 63) ≤ n → n < 2 ^ 63 →
      encode_py (fuel + 1) (.int n) = .ok (0xD3 :: beBytesI 8 n)) := by
  refine ⟨⟨by rfl, by rfl⟩, ?_, ?_⟩
  · intro fuel n h1 h2
    simp only [encode_py, write_object]
    rw [if_pos ⟨h1, h2⟩]
  · intro fuel n h0 h1 h2
    simp only [encode_py, write_object]
    rw [if_neg (by rcases h0 with h | h <;> omega), if_pos ⟨h1, h2⟩]

/-- C4 witness: the amended statement applied at 100 (32-bit path) and at
2^31 (64-bit path). -/
theorem c4_integer_encoding_amended_witness :
    encode_py 1 (.int 100) = .ok [0xD2, 0, 0, 0, 100]
  ∧ encode_py 1 (.int 2147483648) = .ok [0xD3, 0, 0, 0, 0, 128, 0, 0, 0] := by
  constructor
  · exact (c4_integer_encoding_amended.2.1 0 100 (by decide) (by decide)).trans (by rfl)
  · exact (c4_integer_encoding_amended.2.2 0 2147483648 (Or.inr (by decide))
      (by decide) (by decide)).trans (by rfl)

/-- C6 (amended): for every 8-byte timestamp payload, interpreted big-endian
as P, decoding always succeeds and yields nanoseconds = the high 30 bits of P
(P >> 34, cast to u32) and seconds = the low 34 bits of P as an unsigned
integer — not the high 34 bits the claim states.  (The result is always a
representable instant, so the `timestamp_opt` validity check passes.) -/
theorem c6_timestamp64_decode_amended (data : List Nat) (h : data.length = 8) :
    read_timestamp data =
      .ok (.datetime ((beNat data % 2 ^ 34 : Nat) : Int)
        (beNat data / 2 ^ 34 % 2 ^ 32)) := by
  have hlt : beNat data < 256 ^ 8 := by
    have := beNat_lt data
    rwa [h] at this
  have hdiv : beNat data / 2 ^ 34 < 2 ^ 30 := by
    apply Nat.div_lt_of_lt_mul
    calc beNat data < 256 ^ 8 := hlt
      _ = 2 ^ 34 * 2 ^ 30 := by norm_num
  have hns : beNat data / 2 ^ 34 % 2 ^ 32 < 2000000000 := by
    calc beNat data / 2 ^ 34 % 2 ^ 32 ≤ beNat data / 2 ^ 34 := Nat.mod_le _ _
      _ < 2 ^ 30 := hdiv
      _ < 2000000000 := by norm_num
  have hsec : beNat data % 2 ^ 34 < 2 ^ 34 := Nat.mod_lt _ (by norm_num)
  have hvalid : tsValid ((beNat data % 2 ^ 34 : Nat) : Int)
      (beNat data / 2 ^ 34 % 2 ^ 32) = true := by
    simp only [tsValid, Bool.and_eq_true, decide_eq_true_eq]
    refine ⟨⟨hns, ?_⟩, ?_⟩
    · omega
    · have : ((beNat data % 2 ^ 34 : Nat) : Int) < 2 ^ 34 := by exact_mod_cast hsec
      omega
  have hp : tsPair data =
      some (((beNat data % 2 ^ 34 : Nat) : Int), beNat data / 2 ^ 34 % 2 ^ 32) := by
    simp [tsPair, h]
  simp only [read_timestamp, hp, hvalid, if_true]

/-- C6 witness: the amended statement applied at the payload P = 2^34,
where it evaluates to seconds 0, nanoseconds 1. -/
theorem c6_timestamp64_decode_amended_witness :
    read_timestamp [0, 0, 0, 4, 0, 0, 0, 0] = .ok (.datetime 0 1) :=
  (c6_timestamp64_decode_amended [0, 0, 0, 4, 0, 0, 0, 0] (by rfl)).trans (by rfl)

/-- C7 (amended): for a timestamp payload of valid length whose decoded
`(seconds, nanoseconds)` pair is not a representable instant, decoding does
not fail: `Utc.timestamp_opt(..).single()` yields `None` and the function
succeeds with Python `None`. -/
theorem c7_unrepresentable_returns_none (data : List Nat) (s : Int) (n : Nat)
    (hp : tsPair data = some (s, n)) (hv : tsValid s n = false) :
    read_timestamp data = .ok .none := by
  simp [read_timestamp, hp, hv]

/-- C7 witness: the amended statement applied to the 12-byte payload with
nanoseconds = 2000000000 and seconds = 0. -/
theorem c7_unrepresentable_returns_none_witness :
    read_timestamp [0x77, 0x35, 0x94, 0x00, 0, 0, 0, 0, 0, 0, 0, 0] =
      .ok .none :=
  c7_unrepresentable_returns_none _ 0 2000000000 (by rfl) (by rfl)

/-- The settings loop of `write_api_mod` concatenates, for each settings
entry in order, the encoded key string followed by the encoded value. -/
theorem write_settingsAux_flatten (wr : Value → Except EncFail (List Nat))
    (settings : List (List Nat × Value)) (encs : List (List Nat))
    (hf : List.Forall₂ (fun kv bs => ∃ vb, wr kv.2 = .ok vb ∧
      bs = write_str_bytes kv.1 ++ vb) settings encs) :
    write_settingsAux wr settings = .ok encs.flatten := by
  induction hf with
  | nil => rfl
  | cons h _ ih =>
    rename_i a b l1 l2 _
    obtain ⟨k, v⟩ := a
    obtain ⟨vb, hok, hbs⟩ := h
    simp [write_settingsAux, hok, ih, hbs, Bind.bind, Except.bind, Pure.pure, Except.pure]

/-- C2 (amended): for a ModDescriptor with N settings entries whose values
all encode, the encoder emits the outer array header of length 2, the acronym
string, then an inner array header declaring N (`settings.len() as u32`, not
2·N), followed by the N settings as alternating key string / encoded value
(2·N wire elements); the decoder's pair mode doubles the declared length, so
the two sides agree. -/
theorem c2_api_mod_layout_amended (fuel : Nat) (acr : List Nat)
    (settings : List (List Nat × Value)) (encs : List (List Nat))
    (hf : List.Forall₂ (fun kv bs => ∃ vb, write_object fuel kv.2 = .ok vb ∧
      bs = write_str_bytes kv.1 ++ vb) settings encs) :
    write_api_mod fuel acr settings =
      .ok (write_array_len 2 ++ write_str_bytes acr ++
        write_array_len (settings.length % 2 ^ 32) ++ encs.flatten) := by
  simp [write_api_mod, write_settingsAux_flatten (write_object fuel) settings encs hf]

/-- C2 witness: the amended statement applied to acronym "HD" and the single
setting ("x", None); the inner header byte is 0x91 = fixarray of length 1. -/
theorem c2_api_mod_layout_amended_witness :
    write_api_mod 1 [72, 68] [([120], Value.none)] =
      .ok [146, 162, 72, 68, 145, 161, 120, 192] := by
  refine (c2_api_mod_layout_amended 1 [72, 68] [([120], Value.none)]
    [[161, 120, 192]] ?_).trans (by rfl)
  exact List.Forall₂.cons ⟨[192], by rfl, by rfl⟩ List.Forall₂.nil

/-- Structural characterisation of the mod-descriptor result of the array
resolver: for a successful array decode the result is the ModDescriptor shape
exactly when the declared length is 2, pair mode is off, and the first
element decodes (in non-pair mode) to a 2-byte string. -/
theorem read_arrayAux_modDesc_iff (rdF rdT : List Nat → DecResult)
    (len : Nat) (apiMod : Bool) (input : List Nat) (v : Value) (rest : List Nat)
    (h : read_arrayAux rdF rdT len apiMod input = .ok (v, rest)) :
    (∃ a s, v = .modDesc a s) ↔
      (len = 2 ∧ apiMod = false ∧
       ∃ bs r1, rdF input = .ok (.str bs, r1) ∧ bs.length = 2) := by
  cases apiMod with
  | true =>
    simp only [read_arrayAux, if_true] at h
    cases hP : pairLoopAux rdF (pairModeCount len) [] input with
    | error e => rw [hP] at h; simp [Bind.bind, Except.bind] at h
    | ok dr =>
      obtain ⟨d, r⟩ := dr
      rw [hP] at h
      simp only [Bind.bind, Except.bind, Pure.pure, Except.pure,
        Except.ok.injEq, Prod.mk.injEq] at h
      obtain ⟨hv, -⟩ := h
      subst hv
      simp
  | false =>
    simp only [read_arrayAux, Bool.false_eq_true, if_false] at h
    by_cases hlen : len = 2
    · rw [if_pos hlen] at h
      cases h1 : rdF input with
      | error e => rw [h1] at h; simp [Bind.bind, Except.bind] at h
      | ok p1 =>
        obtain ⟨v1, r1⟩ := p1
        rw [h1] at h
        simp only [Bind.bind, Except.bind] at h
        by_cases hA : isAcronym v1 = true
        · rw [if_pos hA] at h
          cases h2 : rdT r1 with
          | error e => rw [h2] at h; simp [Bind.bind, Except.bind] at h
          | ok p2 =>
            obtain ⟨v2, r2⟩ := p2
            rw [h2] at h
            simp only [Bind.bind, Except.bind, Pure.pure, Except.pure,
              Except.ok.injEq, Prod.mk.injEq] at h
            obtain ⟨hv, -⟩ := h
            obtain ⟨bs, hstr, hbs2⟩ := (isAcronym_iff v1).mp hA
            subst hstr
            subst hv
            constructor
            · intro _
              exact ⟨hlen, rfl, bs, r1, rfl, hbs2⟩
            · intro _
              exact ⟨bs, v2, rfl⟩
        · rw [if_neg hA] at h
          cases h2 : readItemsAux rdF 1 r1 with
          | error e => rw [h2] at h; simp [Bind.bind, Except.bind] at h
          | ok p2 =>
            obtain ⟨vs, r2⟩ := p2
            rw [h2] at h
            simp only [Bind.bind, Except.bind, Pure.pure, Except.pure,
              Except.ok.injEq, Prod.mk.injEq] at h
            obtain ⟨hv, -⟩ := h
            subst hv
            constructor
            · rintro ⟨a, s, hs⟩
              cases hs
            · rintro ⟨-, -, bs, r1x, hro, hb2⟩
              have hv1 : v1 = .str bs := by
                injection hro with hro1
                exact (Prod.mk.injEq _ _ _ _ ▸ hro1).1
              exact absurd ((isAcronym_iff v1).mpr ⟨bs, hv1, hb2⟩) hA
    · rw [if_neg hlen] at h
      cases hI : readItemsAux rdF len input with
      | error e => rw [hI] at h; simp [Bind.bind, Except.bind] at h
      | ok p =>
        obtain ⟨vs, r⟩ := p
        rw [hI] at h
        simp only [Bind.bind, Except.bind, Pure.pure, Except.pure,
          Except.ok.injEq, Prod.mk.injEq] at h
        obtain ⟨hv, -⟩ := h
        subst hv
        simp [hlen]

/-- C1: for every array being decoded (a successful `read_array`), the result
is the ModDescriptor shape exactly when the declared length is 2, the
pair-mode flag is false for that array, and the first element decodes in
non-pair mode to a string of UTF-8 byte length exactly 2 (so in particular
every 2-element array whose first element is any 2-byte string becomes a
ModDescriptor); in that case that string becomes the acronym and the second
element is decoded in pair mode as the settings; and when the first element
does not qualify, it is retained as the first item of a plain sequence and
the one remaining element is decoded normally. -/
theorem c1_mod_descriptor_detection :
    (∀ fuel len apiMod input v rest,
        read_array fuel len apiMod input = .ok (v, rest) →
        ((∃ a s, v = .modDesc a s) ↔
          (len = 2 ∧ apiMod = false ∧
           ∃ bs r1, read_object fuel false input = .ok (.str bs, r1) ∧
             bs.length = 2)))
  ∧ (∀ fuel input bs r1,
        read_object fuel false input = .ok (.str bs, r1) → bs.length = 2 →
        read_array fuel 2 false input =
          (do
            let (v2, r2) ← read_object fuel true r1
            pure (Value.modDesc bs v2, r2)))
  ∧ (∀ fuel input v1 r1, read_object fuel false input = .ok (v1, r1) →
        isAcronym v1 = false →
        read_array fuel 2 false input =
          (do
            let (vs, r2) ← readItemsAux (read_object fuel false) 1 r1
            pure (Value.list (v1 :: vs), r2))) := by
  refine ⟨?_, ?_, ?_⟩
  · intro fuel len apiMod input v rest h
    exact read_arrayAux_modDesc_iff _ _ _ _ _ _ _ h
  · intro fuel input bs r1 h1 h2
    simp [read_array, read_arrayAux, h1, isAcronym, h2, Bind.bind, Except.bind]
  · intro fuel input v1 r1 h1 hA
    simp [read_array, read_arrayAux, h1, hA, Bind.bind, Except.bind]

/-- C1 witness: the detection characterisation and the acronym/settings
binding applied to concrete arrays.  For ["hi", nil] the forward direction
of the iff recovers that the first element is the 2-byte string "hi"; for
["hi", ["x", nil]] the binding gives the ModDescriptor whose acronym is
exactly that string and whose settings are the pair-mode decode of the
second element (the one-pair expansion {"x": nil}). -/
theorem c1_mod_descriptor_detection_witness :
    (2 = 2 ∧ false = false ∧
      ∃ bs r1, read_object 3 false [162, 104, 105, 192] = .ok (.str bs, r1) ∧
        bs.length = 2)
  ∧ read_array 3 2 false [162, 104, 105, 145, 161, 120, 192] =
      .ok (.modDesc [104, 105] (.dict [(.str [120], .none)]), []) := by
  constructor
  · exact (c1_mod_descriptor_detection.1 3 2 false [162, 104, 105, 192]
      (.modDesc [104, 105] .none) [] (by rfl)).mp ⟨[104, 105], .none, rfl⟩
  · exact (c1_mod_descriptor_detection.2.1 3 [162, 104, 105, 145, 161, 120, 192]
      [104, 105] [145, 161, 120, 192] (by rfl) (by rfl)).trans (by rfl)

/-- C10: the pair-mode flag influences only values whose marker is an array
(for every non-array marker `read_object` gives the same result in both
modes); consequently, when a detected mod descriptor's second element is not
an array, the ModDescriptor's settings field is that plain decoded value
itself, not a key/value map. -/
theorem c10_pair_mode_only_arrays :
    (∀ fuel apiMod b rest, (markerOf b).isArrayKind = false →
        read_object fuel apiMod (b :: rest) = read_object fuel false (b :: rest))
  ∧ (∀ fuel input bs r1 b rest2 v2 r2,
        read_object fuel false input = .ok (.str bs, r1) → bs.length = 2 →
        r1 = b :: rest2 → (markerOf b).isArrayKind = false →
        read_object fuel false r1 = .ok (v2, r2) →
        read_array fuel 2 false input = .ok (.modDesc bs v2, r2)) := by
  constructor
  · intro fuel apiMod b rest h
    exact read_object_pair_irrel fuel b rest h apiMod false
  · intro fuel input bs r1 b rest2 v2 r2 h1 h2 hr hm h3
    have hT : read_object fuel true r1 = .ok (v2, r2) := by
      rw [hr] at h3 ⊢
      rw [read_object_pair_irrel fuel b rest2 hm true false]
      exact h3
    simp [read_array, read_arrayAux, h1, isAcronym, h2, hT, Bind.bind,
      Except.bind, Pure.pure, Except.pure]

/-- C10 witness: the second part applied to the concrete bytes of the array
["hi", 42]: the settings field is the plain integer 42. -/
theorem c10_pair_mode_only_arrays_witness :
    read_array 3 2 false [162, 104, 105, 42] =
      .ok (.modDesc [104, 105] (.int 42), []) :=
  c10_pair_mode_only_arrays.2 3 [162, 104, 105, 42] [104, 105] [42] 42 []
    (.int 42) [] (by rfl) (by rfl) (by rfl) (by rfl) (by rfl)

/-- A value containing, somewhere the encoder's recursion reaches, a
sub-value whose dynamic kind has no encoding rule. -/
inductive HasUnsupported : Value → Prop where
  | base : HasUnsupported .unsupported
  | inList {v : Value} {xs : List Value} :
      v ∈ xs → HasUnsupported v → HasUnsupported (.list xs)
  | inDictKey {k v : Value} {es : List (Value × Value)} :
      (k, v) ∈ es → HasUnsupported k → HasUnsupported (.dict es)
  | inDictVal {k v : Value} {es : List (Value × Value)} :
      (k, v) ∈ es → HasUnsupported v → HasUnsupported (.dict es)
  | inSettings {k : List Nat} {v : Value} {a : List Nat}
      {s : List (List Nat × Value)} :
      (k, v) ∈ s → HasUnsupported v → HasUnsupported (.apiMod a s)
  | inModDesc {a : List Nat} {s : Value} :
      HasUnsupported s → HasUnsupported (.modDesc a s)

/-- If the list-element loop succeeds, every element encoded. -/
theorem write_itemsAux_ok_mem (wr : Value → Except EncFail (List Nat))
    (xs : List Value) :
    ∀ bs, write_itemsAux wr xs = .ok bs → ∀ x ∈ xs, ∃ b, wr x = .ok b := by
  induction xs with
  | nil => intro bs _ x hx; cases hx
  | cons y ys ih =>
    intro bs h x hx
    simp only [write_itemsAux, Bind.bind, Except.bind] at h
    cases hw : wr y with
    | error e => rw [hw] at h; simp at h
    | ok vb =>
      rw [hw] at h
      cases hr : write_itemsAux wr ys with
      | error e => rw [hr] at h; simp at h
      | ok rb =>
        rcases List.mem_cons.mp hx with rfl | hx2
        · exact ⟨vb, hw⟩
        · exact ih rb hr x hx2

/-- If the dict-entry loop succeeds, every key and value encoded. -/
theorem write_entriesAux_ok_mem (wr : Value → Except EncFail (List Nat))
    (es : List (Value × Value)) :
    ∀ bs, write_entriesAux wr es = .ok bs →
      ∀ p ∈ es, (∃ b, wr p.1 = .ok b) ∧ ∃ b, wr p.2 = .ok b := by
  induction es with
  | nil => intro bs _ p hp; cases hp
  | cons q qs ih =>
    obtain ⟨k, v⟩ := q
    intro bs h p hp
    simp only [write_entriesAux, Bind.bind, Except.bind] at h
    cases hk : wr k with
    | error e => rw [hk] at h; simp at h
    | ok kb =>
      rw [hk] at h
      cases hv : wr v with
      | error e => rw [hv] at h; simp at h
      | ok vb =>
        rw [hv] at h
        cases hr : write_entriesAux wr qs with
        | error e => rw [hr] at h; simp at h
        | ok rb =>
          rcases List.mem_cons.mp hp with rfl | hp2
          · exact ⟨⟨kb, hk⟩, ⟨vb, hv⟩⟩
          · exact ih rb hr p hp2

/-- If the settings loop succeeds, every settings value encoded. -/
theorem write_settingsAux_ok_mem (wr : Value → Except EncFail (List Nat))
    (s : List (List Nat × Value)) :
    ∀ bs, write_settingsAux wr s = .ok bs → ∀ p ∈ s, ∃ b, wr p.2 = .ok b := by
  induction s with
  | nil => intro bs _ p hp; cases hp
  | cons q qs ih =>
    obtain ⟨k, v⟩ := q
    intro bs h p hp
    simp only [write_settingsAux, Bind.bind, Except.bind] at h
    cases hv : wr v with
    | error e => rw [hv] at h; simp at h
    | ok vb =>
      rw [hv] at h
      cases hr : write_settingsAux wr qs with
      | error e => rw [hr] at h; simp at h
      | ok rb =>
        rcases List.mem_cons.mp hp with rfl | hp2
        · exact ⟨vb, hv⟩
        · exact ih rb hr p hp2

/-- A value with an unsupported sub-value never encodes successfully, at any
fuel: the encoder aborts (with a panic once the recursion reaches the
sub-value). -/
theorem hasUnsupported_encode_fails {v : Value} (hv : HasUnsupported v) :
    ∀ fuel bs, write_object fuel v ≠ .ok bs := by
  induction hv with
  | base =>
    intro fuel bs h
    cases fuel with
    | zero => simp [write_object] at h
    | succ f => simp [write_object] at h
  | inList hmem _ ih =>
    intro fuel bs h
    cases fuel with
    | zero => simp [write_object] at h
    | succ f =>
      simp only [write_object, Bind.bind, Except.bind] at h
      cases hb : write_itemsAux (write_object f) _ with
      | error e => rw [hb] at h; simp at h
      | ok body =>
        rw [hb] at h
        obtain ⟨b, hbx⟩ := write_itemsAux_ok_mem _ _ _ hb _ hmem
        exact ih f b hbx
  | inDictKey hmem _ ih =>
    intro fuel bs h
    cases fuel with
    | zero => simp [write_object] at h
    | succ f =>
      simp only [write_object, Bind.bind, Except.bind] at h
      cases hb : write_entriesAux (write_object f) _ with
      | error e => rw [hb] at h; simp at h
      | ok body =>
        rw [hb] at h
        obtain ⟨⟨b, hbx⟩, -⟩ := write_entriesAux_ok_mem _ _ _ hb _ hmem
        exact ih f b hbx
  | inDictVal hmem _ ih =>
    intro fuel bs h
    cases fuel with
    | zero => simp [write_object] at h
    | succ f =>
      simp only [write_object, Bind.bind, Except.bind] at h
      cases hb : write_entriesAux (write_object f) _ with
      | error e => rw [hb] at h; simp at h
      | ok body =>
        rw [hb] at h
        obtain ⟨-, b, hbx⟩ := write_entriesAux_ok_mem _ _ _ hb _ hmem
        exact ih f b hbx
  | inSettings hmem _ ih =>
    intro fuel bs h
    cases fuel with
    | zero => simp [write_object] at h
    | succ f =>
      simp only [write_object, Bind.bind, Except.bind] at h
      cases hb : write_settingsAux (write_object f) _ with
      | error e => rw [hb] at h; simp at h
      | ok body =>
        rw [hb] at h
        obtain ⟨b, hbx⟩ := write_settingsAux_ok_mem _ _ _ hb _ hmem
        exact ih f b hbx
  | inModDesc _ ih =>
    rename_i a s hs2
    intro fuel bs h
    cases fuel with
    | zero => simp [write_object] at h
    | succ f =>
      simp only [write_object, Bind.bind, Except.bind] at h
      cases hb : write_entriesAux (write_object f) _ with
      | error e => rw [hb] at h; simp at h
      | ok body =>
        rw [hb] at h
        have hmem : (Value.str [115, 101, 116, 116, 105, 110, 103, 115], s) ∈
            [(Value.str [97, 99, 114, 111, 110, 121, 109], Value.str a),
             (Value.str [115, 101, 116, 116, 105, 110, 103, 115], s)] := by
          simp
        obtain ⟨-, b, hbx⟩ := write_entriesAux_ok_mem _ _ _ hb _ hmem
        exact ih f b hbx

/-- C8 (amended): encode fails atomically for any value containing a
sub-value without an encoding rule — no bytes are ever delivered to the
caller — but the failure mode is the `panic!` unwinding out of the encode
entry point (`EncFail.panicked`), not a structured error return: the encode
path has no structured-error outcome at all. -/
theorem c8_encode_atomic_failure :
    (∀ fuel v bs, encode_py fuel v = .ok bs → ¬ HasUnsupported v)
  ∧ encode_py 1 .unsupported = .error (.panicked "Unsupported type") := by
  constructor
  · intro fuel v bs h hv
    exact hasUnsupported_encode_fails hv fuel bs h
  · rfl

/-- C8 witness: the atomicity direction applied to the supported value 0,
whose encoding succeeds. -/
theorem c8_encode_atomic_failure_witness : ¬ HasUnsupported (Value.int 0) :=
  c8_encode_atomic_failure.1 1 (Value.int 0) [0xD2, 0, 0, 0, 0] (by rfl)

/-- C8 counterexample: encode of a list containing an unsupported value
fails by the panic (modelled as `EncFail.panicked`, the unwinding failure),
not by returning a structured error — the encode result type has no
structured-error outcome. -/
theorem c8_encode_panics_counterexample :
    encode_py 2 (.list [.unsupported]) =
      .error (.panicked "Unsupported type") := by
  rfl
